import Mathlib

/-!
Verification of the HTTP/1.x message-framing core of the go-http repository
(a fork of Go's net/http keeping only the Transport and Server paths).

The Go sources are shallowly embedded: header maps become association lists,
`*http.Request` becomes a `Request` structure, the fallible reader pipeline
`readRequest` becomes an `Except`-valued function parameterised by its external
collaborators (the line/header reader, the URL parser, the framing resolver).
Definitions translated from repository code keep the source structure; external
collaborators and repository helpers whose source is not in the provided slice
are modelled and marked as such in their doc comments.
-/

namespace GoHttp

/-- A header map: association list from (canonical MIME) field name to the ordered
list of field values, embedding Go's `http.Header` (`map[string][]string`).
An empty map is the empty list; lookup is by exact key. -/
abbrev Header := List (String × List String)

/-- Map lookup `header[k]`: the value list of the first entry with key `k`. -/
def headerLookup (h : Header) (k : String) : Option (List String) :=
  match h with
  | [] => none
  | (k2, vs) :: rest => if k2 = k then some vs else headerLookup rest k

/-- Membership test `_, ok := header[k]` on a Go header map. -/
def headerHasKey (h : Header) (k : String) : Bool :=
  (headerLookup h k).isSome

/-- Embeds `http.Header.Get`: the first value of the field, or "" when absent
(keys are taken to be in canonical form already). -/
def headerGet (h : Header) (k : String) : String :=
  match headerLookup h k with
  | some (v :: _) => v
  | _ => ""

/-- Map assignment `header[k] = vs`: replace the value list of the first entry
with key `k`, or append a new entry when the key is absent. -/
def headerSet (h : Header) (k : String) (vs : List String) : Header :=
  match h with
  | [] => [(k, vs)]
  | (k2, vs2) :: rest =>
      if k2 = k then (k2, vs) :: rest else (k2, vs2) :: headerSet rest k vs

/-- Modelled from the spec: header field access by name returning the field's
first value (the helper `getFromHeader`, used by `readRequest` for the Host
field, is repository code not among the provided sources; §3 describes headers
as a mapping from field name to an ordered sequence of field values). -/
def getFromHeader (h : Header) (key : String) : String :=
  headerGet h key

/-- ASCII lower-casing of one character. -/
def toLowerAscii (c : Char) : Char :=
  if 'A' ≤ c ∧ c ≤ 'Z' then Char.ofNat (c.toNat + 32) else c

/-- Modelled from the spec: `ascii.EqualFold` from the repository's
`internal/ascii` package (not among the provided sources) — ASCII
case-insensitive string equality. -/
def asciiEqualFold (a b : String) : Bool :=
  a.data.map toLowerAscii = b.data.map toLowerAscii

/-- Optional whitespace trimming (spaces and horizontal tabs) used when
splitting a comma-separated header value into its tokens. -/
def trimOWS (l : List Char) : List Char :=
  ((l.dropWhile (fun c => c = ' ' ∨ c = '\t')).reverse.dropWhile
    (fun c => c = ' ' ∨ c = '\t')).reverse

/-- Modelled from the spec: `hasToken` (repository code not among the provided
sources) — §4.3 requires a "case-insensitive token match, not substring match"
against a comma-separated header value. -/
def hasToken (v token : String) : Bool :=
  (v.data.splitOn ',').any
    (fun part => asciiEqualFold (String.mk (trimOWS part)) token)

/-- The kind of a request body reference: Go's `nil` body, the `http.NoBody`
sentinel, or a real byte stream. -/
inductive BodyVal
  | nil
  | noBody
  | stream
deriving DecidableEq, Repr

/-- The slice of `url.URL` that `readRequest` manipulates. -/
structure URLRec where
  scheme : String
  host : String
  path : String
deriving DecidableEq, Repr

/-- The slice of `http.Request` the framing core reads and writes.
Field names are the lower-cased Go field names; `getBody` records whether the
Go `GetBody` re-creation function is non-nil. -/
structure Request where
  method : String
  requestURI : String
  proto : String
  protoMajor : Nat
  protoMinor : Nat
  url : URLRec
  header : Header
  host : String
  close : Bool
  contentLength : Int
  body : BodyVal
  getBody : Bool
deriving DecidableEq, Repr

/-- Embeds `valueOrDefault` (request reading, lines 30–36): the value if
nonempty, the default otherwise. -/
def valueOrDefault (value d : String) : String :=
  if value ≠ "" then value else d

/-- Embeds `isReplayableRequest` (request reading, lines 206–224): the body must
be absent (`nil` or `http.NoBody`) or re-creatable (`GetBody` non-nil); then the
method (defaulted to GET when empty) must be safe, or an idempotency-key header
must be present. -/
def isReplayableRequest (req : Request) : Bool :=
  if req.body = BodyVal.nil ∨ req.body = BodyVal.noBody ∨ req.getBody = true then
    if valueOrDefault req.method "GET" = "GET" ∨
       valueOrDefault req.method "GET" = "HEAD" ∨
       valueOrDefault req.method "GET" = "OPTIONS" ∨
       valueOrDefault req.method "GET" = "TRACE" then true
    else if headerHasKey req.header "Idempotency-Key" then true
    else if headerHasKey req.header "X-Idempotency-Key" then true
    else false
  else false

end GoHttp

namespace GoHttp

/-- Shorthand for the replay-safety body condition of `isReplayableRequest`:
no body, the `NoBody` sentinel, or a re-creatable body. -/
def bodyAbsentOrRecreatable (req : Request) : Prop :=
  req.body = BodyVal.nil ∨ req.body = BodyVal.noBody ∨ req.getBody = true

/-- Shorthand for presence of either idempotency-key header. -/
def idempotencyKeyPresent (req : Request) : Prop :=
  headerHasKey req.header "Idempotency-Key" = true ∨
  headerHasKey req.header "X-Idempotency-Key" = true

/-- A GET request with no body, no headers: concrete test vector. -/
def getNoBodyReq : Request :=
  { method := "GET", requestURI := "/", proto := "HTTP/1.1", protoMajor := 1,
    protoMinor := 1, url := ⟨"", "", "/"⟩, header := [], host := "",
    close := false, contentLength := 0, body := BodyVal.nil, getBody := false }

/-- A POST with a real body and no idempotency key: concrete test vector. -/
def postBodyReq : Request :=
  { getNoBodyReq with method := "POST", body := BodyVal.stream }

/-- A POST with an Idempotency-Key header and a re-creatable body. -/
def postKeyGetBodyReq : Request :=
  { getNoBodyReq with
    method := "POST"
    body := BodyVal.stream
    getBody := true
    header := [("Idempotency-Key", ["k1"])] }

/-- A request with an empty method and no body. -/
def emptyMethodReq : Request :=
  { getNoBodyReq with method := "" }

/-- A POST with an Idempotency-Key header, a real body, and no GetBody. -/
def postKeyNoGetBodyReq : Request :=
  { getNoBodyReq with
    method := "POST"
    body := BodyVal.stream
    header := [("Idempotency-Key", ["k1"])] }

end GoHttp

namespace GoHttp

/-- C1 (counterexample): the claimed characterisation of `isReplayableRequest`
fails at a request with an empty method: with no body, no headers and method
`""`, the code judges the request replayable (the empty method defaults to
GET), yet the claim's condition — method literally one of GET, HEAD, OPTIONS,
TRACE, or an idempotency-key header present — is false. -/
theorem isReplayable_empty_method_refutes_claim :
    isReplayableRequest emptyMethodReq = true ∧
    ¬ ((emptyMethodReq.method = "GET" ∨ emptyMethodReq.method = "HEAD" ∨
        emptyMethodReq.method = "OPTIONS" ∨ emptyMethodReq.method = "TRACE") ∨
       idempotencyKeyPresent emptyMethodReq) := by
  refine ⟨by decide, ?_⟩
  intro hc
  rcases hc with h | h
  · simp [emptyMethodReq, getNoBodyReq] at h
  · rcases h with h | h <;> simp [idempotencyKeyPresent, emptyMethodReq, getNoBodyReq,
      headerHasKey, headerLookup] at h

/-- Shared characterisation of `isReplayableRequest`, used below: true iff the
body is absent or re-creatable and either the defaulted method is safe or an
idempotency-key header is present. -/
theorem isReplayable_iff (req : Request) :
    isReplayableRequest req = true ↔
      (bodyAbsentOrRecreatable req ∧
        ((valueOrDefault req.method "GET" = "GET" ∨
          valueOrDefault req.method "GET" = "HEAD" ∨
          valueOrDefault req.method "GET" = "OPTIONS" ∨
          valueOrDefault req.method "GET" = "TRACE") ∨
         idempotencyKeyPresent req)) := by
  unfold isReplayableRequest bodyAbsentOrRecreatable idempotencyKeyPresent
  split
  · next hbody =>
    split
    · next hm => simp [hbody, hm]
    · next hm =>
      split
      · next hk => simp [hbody, hk]
      · next hk =>
        split
        · next hk2 => simp [hbody, hk2]
        · next hk2 => simp [hbody, hm, hk, hk2]
  · next hbody => simp [hbody]

/-- C1 (amended): `isReplayableRequest` returns true iff the body is absent
(`nil` or `http.NoBody`) or re-creatable (`GetBody` non-nil), and additionally
either the method — with an empty method defaulting to GET — is one of GET,
HEAD, OPTIONS, TRACE, or an Idempotency-Key / X-Idempotency-Key header entry is
present; in particular a GET with no body and no key is replayable, a POST
with a body and no key is not, and a POST with the key and a re-creatable body
is. -/
theorem isReplayable_characterization :
    (∀ req : Request, isReplayableRequest req = true ↔
      (bodyAbsentOrRecreatable req ∧
        ((valueOrDefault req.method "GET" = "GET" ∨
          valueOrDefault req.method "GET" = "HEAD" ∨
          valueOrDefault req.method "GET" = "OPTIONS" ∨
          valueOrDefault req.method "GET" = "TRACE") ∨
         idempotencyKeyPresent req))) ∧
    isReplayableRequest getNoBodyReq = true ∧
    isReplayableRequest postBodyReq = false ∧
    isReplayableRequest postKeyGetBodyReq = true :=
  ⟨isReplayable_iff, by decide, by decide, by decide⟩

/-- C2 (counterexample): a POST carrying an Idempotency-Key header but a
non-recreatable body (`Body` a real stream, `GetBody` nil) is judged NOT
replayable: the header alone is not sufficient, refuting the claim. -/
theorem idempotency_key_alone_not_sufficient :
    headerHasKey postKeyNoGetBodyReq.header "Idempotency-Key" = true ∧
    postKeyNoGetBodyReq.body = BodyVal.stream ∧
    postKeyNoGetBodyReq.getBody = false ∧
    isReplayableRequest postKeyNoGetBodyReq = false := by
  decide

/-- C2 (amended): an Idempotency-Key (or X-Idempotency-Key) header makes a
request replayable regardless of its method, provided the body is absent
(`Body` nil or `http.NoBody`) or re-creatable (`GetBody` non-nil). -/
theorem idempotency_key_replayable_when_body_recreatable (req : Request)
    (hkey : idempotencyKeyPresent req)
    (hbody : bodyAbsentOrRecreatable req) :
    isReplayableRequest req = true := by
  rw [isReplayable_iff]
  exact ⟨hbody, Or.inr hkey⟩

/-- C2 (witness): the amended theorem applied to the concrete POST carrying an
Idempotency-Key header and a re-creatable body. -/
theorem idempotency_key_replayable_when_body_recreatable_witness :
    isReplayableRequest postKeyGetBodyReq = true :=
  idempotency_key_replayable_when_body_recreatable postKeyGetBodyReq
    (Or.inl (by decide)) (Or.inr (Or.inr (by decide)))

/-- C10: a request with an empty Method string and no body (`Body` nil or
`http.NoBody`) is judged replayable by `isReplayableRequest` — the empty method
is defaulted to "GET" via `valueOrDefault` — irrespective of its headers. -/
theorem isReplayable_empty_method_defaults_to_get (req : Request)
    (hm : req.method = "")
    (hb : req.body = BodyVal.nil ∨ req.body = BodyVal.noBody) :
    valueOrDefault req.method "GET" = "GET" ∧ isReplayableRequest req = true := by
  constructor
  · rw [hm]; decide
  · rw [isReplayable_iff]
    refine ⟨?_, Or.inl ?_⟩
    · rcases hb with h | h
      · exact Or.inl h
      · exact Or.inr (Or.inl h)
    · rw [hm]; left; decide

/-- C10 (witness): the theorem applied to the concrete empty-method request. -/
theorem isReplayable_empty_method_defaults_to_get_witness :
    valueOrDefault emptyMethodReq.method "GET" = "GET" ∧
    isReplayableRequest emptyMethodReq = true :=
  isReplayable_empty_method_defaults_to_get emptyMethodReq (by decide)
    (Or.inl (by decide))

end GoHttp

namespace GoHttp

/-- The RFC 7230 token punctuation characters (spec §4.1); code 39 is the
apostrophe and code 96 the grave accent. -/
def tokenPunct : List Char :=
  ['!', '#', '$', '%', '&', Char.ofNat 39, '*', '+', '-', '.', '^', '_',
   Char.ofNat 96, '|', '~']

/-- Token character test, modelling the external collaborator
httpguts.IsTokenRune: ASCII letters, digits, and the token punctuation. -/
def isTokenChar (c : Char) : Bool :=
  c.isAlphanum || tokenPunct.contains c

/-- Embeds isToken / validMethod (http.go lines 100–103 delegating to the
external collaborator httpguts.ValidHeaderFieldName): nonempty and all token
characters. -/
def isToken (v : String) : Bool :=
  !v.isEmpty && v.data.all isTokenChar

/-- Single decimal digit value. -/
def parseDigit (c : Char) : Option Nat :=
  if '0' ≤ c ∧ c ≤ '9' then some (c.toNat - '0'.toNat) else none

/-- Model of the external collaborator net/http.ParseHTTPVersion, accepting the
same grammar as the Go function: the fast paths "HTTP/1.1" and "HTTP/1.0", else
exactly "HTTP/" followed by one digit, a dot, and one digit. -/
def parseHTTPVersion (vers : String) : Option (Nat × Nat) :=
  if vers = "HTTP/1.1" then some (1, 1)
  else if vers = "HTTP/1.0" then some (1, 0)
  else match vers.data with
    | ['H', 'T', 'T', 'P', '/', ma, '.', mi] =>
      match parseDigit ma, parseDigit mi with
      | some a, some b => some (a, b)
      | _, _ => none
    | _ => none

/-- Embeds strings.Cut(s, " ") on the character list: the part before the first
space and the part after it, or none when the string holds no space. -/
def cutSpace : List Char → Option (List Char × List Char)
  | [] => none
  | c :: cs =>
    if c = ' ' then some ([], cs)
    else match cutSpace cs with
      | none => none
      | some (a, b) => some (c :: a, b)

/-- Embeds parseRequestLine (request reading, lines 168–175): two successive
cuts at the first space; fails when either cut finds no space. -/
def parseRequestLine (line : String) : Option (String × String × String) :=
  match cutSpace line.data with
  | none => none
  | some (m, rest) =>
    match cutSpace rest with
    | none => none
    | some (uri, proto) => some (String.mk m, String.mk uri, String.mk proto)

/-- Embeds strings.HasPrefix(rawurl, "/") from the CONNECT special case. -/
def hasPrefixSlash (s : String) : Bool :=
  match s.data with
  | c :: _ => decide (c = '/')
  | [] => false

/-- The URL string handed to the URL parser (request reading, lines 110–113):
a CONNECT target that does not begin with "/" is prefixed with a synthetic
"http://" scheme before structural parsing. -/
def effectiveRawURL (method target : String) : String :=
  if method = "CONNECT" ∧ hasPrefixSlash target = false then
    "http://" ++ target
  else target

/-- Model of the external collaborator net/url.ParseRequestURI, restricted to
the grammar readRequest exercises: the asterisk form "*", rooted paths (kept
whole, valid for targets without a query or fragment part), and absolute
"http://host/path" URLs without userinfo, query or fragment. -/
def modelParseURIData : List Char → Except String URLRec
  | [] => Except.error "empty url"
  | ['*'] => Except.ok ⟨"", "", "*"⟩
  | '/' :: rest => Except.ok ⟨"", "", String.mk ('/' :: rest)⟩
  | 'h' :: 't' :: 't' :: 'p' :: ':' :: '/' :: '/' :: rest =>
      Except.ok ⟨"http", String.mk (rest.takeWhile (fun c => c != '/')),
        String.mk (rest.dropWhile (fun c => c != '/'))⟩
  | _ => Except.error "invalid URI"

/-- Entry point of the model on strings. -/
def modelParseRequestURI (s : String) : Except String URLRec :=
  modelParseURIData s.data

/-- Embeds fixPragmaCacheControl (response reading, lines 31–37): when the
Pragma field is present with first value "no-cache" and no Cache-Control entry
exists, synthesize Cache-Control: no-cache; otherwise leave the map untouched. -/
def fixPragmaCacheControl (header : Header) : Header :=
  match headerLookup header "Pragma" with
  | some (v :: _) =>
    if v = "no-cache" then
      if headerHasKey header "Cache-Control" then header
      else headerSet header "Cache-Control" ["no-cache"]
    else header
  | _ => header

/-- Embeds isH2UpgradeRequest (request reading, lines 202–204): method "PRI",
an empty header map, URL path "*", and protocol string "HTTP/2.0". -/
def isH2UpgradeRequest (req : Request) : Bool :=
  if req.method = "PRI" ∧ req.header = ([] : Header) ∧ req.url.path = "*" ∧
     req.proto = "HTTP/2.0" then true else false

/-- Embeds the tail of readRequest (lines 155–164): on detecting the HTTP/2
cleartext preface, force unknown content length (-1) and connection close. -/
def h2Adjust (req : Request) : Request :=
  if isH2UpgradeRequest req then { req with contentLength := -1, close := true }
  else req

/-- An error reported by a reader or transfer collaborator: end-of-stream
(io.EOF) or another I/O error. -/
inductive RdErr
  | eof
  | other (msg : String)
deriving DecidableEq, Repr

/-- The errors readRequest can surface; badStringError payloads keep their
subjects. io.ErrUnexpectedEOF is the distinguished unexpectedEOF value. -/
inductive ReqError
  | eof
  | unexpectedEOF
  | ioOther (msg : String)
  | malformedStartLine (line : String)
  | invalidMethod (method : String)
  | malformedVersion (proto : String)
  | urlError (msg : String)
  | tooManyHostHeaders
  | transferError (msg : String)
deriving DecidableEq, Repr

/-- Embeds the deferred conversion installed after the first ReadLine succeeds:
a returned io.EOF becomes io.ErrUnexpectedEOF; other errors pass through. -/
def normEOF : ReqError → ReqError
  | ReqError.eof => ReqError.unexpectedEOF
  | e => e

/-- Modelled from the spec: shouldClose — the close intent of the
Connection-Semantics Resolver (§4.3): a Connection: close token forces close;
HTTP/1.0 defaults to close absent an explicit keep-alive token; HTTP/1.1
defaults to persistent (the function is repository code not among the provided
sources). -/
def shouldClose (major minor : Nat) (header : Header) : Bool :=
  if major < 1 then true
  else if ((headerLookup header "Connection").getD []).any
      (fun v => hasToken v "close") then true
  else if major = 1 ∧ minor = 0 then
    !(((headerLookup header "Connection").getD []).any
      (fun v => hasToken v "keep-alive"))
  else false

/-- Modelled from the spec: the Framing Resolver (§4.2) for inbound requests,
restricted to messages carrying neither Transfer-Encoding nor Content-Length —
rule 4 applies and the policy is no-body (length 0); other shapes lie outside
the modelled fragment (readTransfer is repository code not among the provided
sources). -/
def modelReadTransfer (req : Request) : Except RdErr Request :=
  if headerHasKey req.header "Transfer-Encoding" ∨
     headerHasKey req.header "Content-Length" then
    Except.error (RdErr.other "framing outside modelled fragment")
  else Except.ok { req with contentLength := 0, body := BodyVal.noBody }

/-- The two reader results readRequest consumes from the textproto collaborator:
the start line from ReadLine and the MIME header block from ReadMIMEHeader. -/
structure RawRequest where
  startLine : Except RdErr String
  mimeHeader : Except RdErr Header

/-- The body of readRequest after the first ReadLine succeeded (request
reading, lines 88–165): parse and validate the start line, resolve the target
URL (with the CONNECT authority special case), read the header block, reject
repeated Host fields, apply the Pragma fix and the close policy, run the
framing resolver, and apply the HTTP/2-preface adjustment. -/
def readRequestAfterLine (parseURI : String → Except String URLRec)
    (readTransferF : Request → Except RdErr Request)
    (s : String) (mh : Except RdErr Header) : Except ReqError Request :=
  match parseRequestLine s with
  | none => Except.error (ReqError.malformedStartLine s)
  | some (method, requestURI, proto) =>
    if isToken method = false then Except.error (ReqError.invalidMethod method)
    else
      match parseHTTPVersion proto with
      | none => Except.error (ReqError.malformedVersion proto)
      | some (protoMajor, protoMinor) =>
        match parseURI (effectiveRawURL method requestURI) with
        | Except.error e => Except.error (ReqError.urlError e)
        | Except.ok u0 =>
          let u := if method = "CONNECT" ∧ hasPrefixSlash requestURI = false
                   then { u0 with scheme := "" } else u0
          match mh with
          | Except.error RdErr.eof => Except.error ReqError.eof
          | Except.error (RdErr.other m) => Except.error (ReqError.ioOther m)
          | Except.ok hdr0 =>
            if 1 < ((headerLookup hdr0 "Host").getD []).length then
              Except.error ReqError.tooManyHostHeaders
            else
              match readTransferF
                { method := method
                  requestURI := requestURI
                  proto := proto
                  protoMajor := protoMajor
                  protoMinor := protoMinor
                  url := u
                  header := fixPragmaCacheControl hdr0
                  host := if u.host ≠ "" then u.host else getFromHeader hdr0 "Host"
                  close := shouldClose protoMajor protoMinor (fixPragmaCacheControl hdr0)
                  contentLength := 0
                  body := BodyVal.nil
                  getBody := false } with
              | Except.error RdErr.eof => Except.error ReqError.eof
              | Except.error (RdErr.other m) => Except.error (ReqError.transferError m)
              | Except.ok r => Except.ok (h2Adjust r)

/-- Embeds readRequest (request reading, lines 71–166), parameterised by its
external collaborators: parseURI for net/url.ParseRequestURI and readTransferF
for the framing resolver readTransfer. The first ReadLine error is returned
unconverted; the deferred normalization then maps every later io.EOF to
io.ErrUnexpectedEOF. -/
def readRequest (parseURI : String → Except String URLRec)
    (readTransferF : Request → Except RdErr Request)
    (inp : RawRequest) : Except ReqError Request :=
  match inp.startLine with
  | Except.error RdErr.eof => Except.error ReqError.eof
  | Except.error (RdErr.other m) => Except.error (ReqError.ioOther m)
  | Except.ok s =>
      Except.mapError normEOF
        (readRequestAfterLine parseURI readTransferF s inp.mimeHeader)

end GoHttp

namespace GoHttp

/-- cutSpace finds nothing exactly on space-free character lists. -/
theorem cutSpace_eq_none_iff (l : List Char) : cutSpace l = none ↔ ' ' ∉ l := by
  induction l with
  | nil => simp [cutSpace]
  | cons c cs ih =>
    simp only [cutSpace]
    by_cases hc : c = ' '
    · subst hc; simp
    · rw [if_neg hc]
      cases h : cutSpace cs with
      | none =>
        simp only [List.mem_cons]
        constructor
        · intro _ hm
          rcases hm with hm | hm
          · exact hc hm.symm
          · exact (ih.mp h) hm
        · intro _; trivial
      | some p =>
        obtain ⟨a, b⟩ := p
        simp only [List.mem_cons]
        constructor
        · intro hfalse; exact absurd hfalse (by simp)
        · intro hmem
          exfalso
          have : ' ' ∈ cs := by
            by_contra hni
            rw [ih.mpr hni] at h
            exact Option.noConfusion h
          exact hmem (Or.inr this)

/-- A successful cut decomposes the list at its first space. -/
theorem cutSpace_eq_some (l a b : List Char) (h : cutSpace l = some (a, b)) :
    l = a ++ ' ' :: b ∧ ' ' ∉ a := by
  induction l generalizing a b with
  | nil => simp [cutSpace] at h
  | cons c cs ih =>
    simp only [cutSpace] at h
    by_cases hc : c = ' '
    · subst hc
      rw [if_pos rfl] at h
      simp only [Option.some.injEq, Prod.mk.injEq] at h
      obtain ⟨ha, hb⟩ := h
      subst ha; subst hb
      simp
    · rw [if_neg hc] at h
      cases h2 : cutSpace cs with
      | none => rw [h2] at h; exact absurd h (by simp)
      | some p =>
        obtain ⟨a2, b2⟩ := p
        rw [h2] at h
        simp only [Option.some.injEq, Prod.mk.injEq] at h
        obtain ⟨ha, hb⟩ := h
        subst ha; subst hb
        obtain ⟨hl, hna⟩ := ih a2 b2 h2
        constructor
        · rw [hl]; rfl
        · intro hmem
          rcases List.mem_cons.mp hmem with hm | hm
          · exact hc hm.symm
          · exact hna hm

/-- Cutting a list assembled as a space-free prefix, a space, and a suffix. -/
theorem cutSpace_append (a b : List Char) (ha : ' ' ∉ a) :
    cutSpace (a ++ ' ' :: b) = some (a, b) := by
  induction a with
  | nil => simp [cutSpace]
  | cons c cs ih =>
    have hc : ¬(c = ' ') := fun hcc => ha (hcc ▸ List.mem_cons_self c cs)
    simp only [List.cons_append, cutSpace, if_neg hc]
    rw [List.append_eq, ih (fun hm => ha (List.mem_cons_of_mem c hm))]

/-- parseRequestLine maps a well-formed line (space-free method, one space,
space-free target, one space, protocol) to exactly its three fields. -/
theorem parseRequestLine_wellFormed (m t p : String)
    (hm : ' ' ∉ m.data) (ht : ' ' ∉ t.data) :
    parseRequestLine (m ++ " " ++ t ++ " " ++ p) = some (m, t, p) := by
  unfold parseRequestLine
  have hdata : (m ++ " " ++ t ++ " " ++ p).data
      = m.data ++ ' ' :: (t.data ++ ' ' :: p.data) := by
    simp [String.data_append]
  rw [hdata, cutSpace_append _ _ hm]
  dsimp only
  rw [cutSpace_append _ _ ht]

/-- A line holding fewer than two spaces fails to parse. -/
theorem parseRequestLine_eq_none_of_count (line : String)
    (h : line.data.count ' ' < 2) : parseRequestLine line = none := by
  unfold parseRequestLine
  cases hc : cutSpace line.data with
  | none => rfl
  | some p =>
    obtain ⟨a, b⟩ := p
    obtain ⟨hl, hna⟩ := cutSpace_eq_some _ _ _ hc
    have hcount : line.data.count ' ' = a.count ' ' + 1 + b.count ' ' := by
      rw [hl]; simp [List.count_append, List.count_cons]; omega
    have ha0 : a.count ' ' = 0 := List.count_eq_zero.mpr hna
    have hb0 : b.count ' ' = 0 := by omega
    dsimp only
    rw [(cutSpace_eq_none_iff b).mpr (List.count_eq_zero.mp hb0)]

end GoHttp

namespace GoHttp

/-- A start line that fails to parse makes readRequest report it malformed. -/
theorem readRequest_malformed_of_parse_none
    (pURI : String → Except String URLRec)
    (tf : Request → Except RdErr Request) (line : String)
    (mh : Except RdErr Header) (hp : parseRequestLine line = none) :
    readRequest pURI tf ⟨Except.ok line, mh⟩ =
      Except.error (ReqError.malformedStartLine line) := by
  have hred : readRequest pURI tf ⟨Except.ok line, mh⟩
      = Except.mapError normEOF (readRequestAfterLine pURI tf line mh) := rfl
  rw [hred]
  unfold readRequestAfterLine
  rw [hp]
  rfl

/-- A parsed start line whose method is not a token makes readRequest report an
invalid method. -/
theorem readRequest_invalidMethod_of_notToken
    (pURI : String → Except String URLRec)
    (tf : Request → Except RdErr Request) (line : String)
    (mh : Except RdErr Header) (m t p : String)
    (hp : parseRequestLine line = some (m, t, p)) (hm : isToken m = false) :
    readRequest pURI tf ⟨Except.ok line, mh⟩ =
      Except.error (ReqError.invalidMethod m) := by
  have hred : readRequest pURI tf ⟨Except.ok line, mh⟩
      = Except.mapError normEOF (readRequestAfterLine pURI tf line mh) := rfl
  rw [hred]
  unfold readRequestAfterLine
  rw [hp]
  dsimp only
  rw [if_pos hm]
  rfl

/-- Past a successful parse with a valid method token, neither the malformed
start line error nor the invalid method error can be the outcome. -/
theorem readRequest_past_startline
    (pURI : String → Except String URLRec)
    (tf : Request → Except RdErr Request) (line : String)
    (mh : Except RdErr Header) (m t p : String)
    (hp : parseRequestLine line = some (m, t, p)) (hm : isToken m = true) :
    ∀ e, readRequest pURI tf ⟨Except.ok line, mh⟩ = Except.error e →
      (∀ l2, e ≠ ReqError.malformedStartLine l2) ∧
      (∀ m2, e ≠ ReqError.invalidMethod m2) := by
  intro e he
  have hred : readRequest pURI tf ⟨Except.ok line, mh⟩
      = Except.mapError normEOF (readRequestAfterLine pURI tf line mh) := rfl
  rw [hred] at he
  unfold readRequestAfterLine at he
  rw [hp] at he
  dsimp only at he
  rw [if_neg (by simp [hm])] at he
  repeat' split at he
  all_goals simp only [Except.mapError, normEOF] at he
  all_goals try exact Except.noConfusion he
  all_goals injection he with he2
  all_goals subst he2
  all_goals exact ⟨fun l2 h => ReqError.noConfusion h,
    fun m2 h => ReqError.noConfusion h⟩

end GoHttp

namespace GoHttp

/-- C3: every well-formed start line "<TOKEN> <target> HTTP/<m>.<n>" (method
and target space-free, one space before the target and one before the protocol
field) parses to exactly its method, target and protocol string; readRequest
passes start-line validation for it when the method is a valid HTTP token
(never reporting a malformed start line or an invalid method); a line missing
either separating space fails to parse and readRequest reports it as a
malformed start line; a parseable line whose method is not a valid token makes
readRequest report the invalid-method error. -/
theorem startline_parsing_spec :
    (∀ m t p : String, ' ' ∉ m.data → ' ' ∉ t.data →
      parseRequestLine (m ++ " " ++ t ++ " " ++ p) = some (m, t, p)) ∧
    (∀ line : String, line.data.count ' ' < 2 →
      parseRequestLine line = none ∧
      ∀ pURI tf mh, readRequest pURI tf ⟨Except.ok line, mh⟩ =
        Except.error (ReqError.malformedStartLine line)) ∧
    (∀ m t p : String, ' ' ∉ m.data → ' ' ∉ t.data → isToken m = false →
      ∀ pURI tf mh,
        readRequest pURI tf ⟨Except.ok (m ++ " " ++ t ++ " " ++ p), mh⟩ =
          Except.error (ReqError.invalidMethod m)) ∧
    (∀ m t p : String, ' ' ∉ m.data → ' ' ∉ t.data → isToken m = true →
      ∀ pURI tf mh e,
        readRequest pURI tf ⟨Except.ok (m ++ " " ++ t ++ " " ++ p), mh⟩ =
          Except.error e →
        (∀ l2, e ≠ ReqError.malformedStartLine l2) ∧
        (∀ m2, e ≠ ReqError.invalidMethod m2)) := by
  refine ⟨parseRequestLine_wellFormed, ?_, ?_, ?_⟩
  · intro line hl
    exact ⟨parseRequestLine_eq_none_of_count line hl,
      fun pURI tf mh => readRequest_malformed_of_parse_none pURI tf line mh
        (parseRequestLine_eq_none_of_count line hl)⟩
  · intro m t p hm ht htok pURI tf mh
    exact readRequest_invalidMethod_of_notToken pURI tf _ mh m t p
      (parseRequestLine_wellFormed m t p hm ht) htok
  · intro m t p hm ht htok pURI tf mh e he
    exact readRequest_past_startline pURI tf _ mh m t p
      (parseRequestLine_wellFormed m t p hm ht) htok e he

/-- C3 (witness): the theorem instantiated at concrete start lines — a good
GET line, a line with no spaces, a line whose method "(" is not a token, and a
valid-method run whose error (a header I/O failure) is neither start-line
error. -/
theorem startline_parsing_spec_witness :
    (parseRequestLine ("GET" ++ " " ++ "/index.html" ++ " " ++ "HTTP/1.0") =
      some ("GET", "/index.html", "HTTP/1.0")) ∧
    (parseRequestLine "nospace" = none) ∧
    (readRequest modelParseRequestURI modelReadTransfer
        ⟨Except.ok "nospace", Except.ok []⟩ =
      Except.error (ReqError.malformedStartLine "nospace")) ∧
    (readRequest modelParseRequestURI modelReadTransfer
        ⟨Except.ok ("(" ++ " " ++ "/" ++ " " ++ "HTTP/1.1"), Except.ok []⟩ =
      Except.error (ReqError.invalidMethod "(")) ∧
    (∀ m2, ReqError.ioOther "boom" ≠ ReqError.invalidMethod m2) :=
  ⟨startline_parsing_spec.1 "GET" "/index.html" "HTTP/1.0" (by decide) (by decide),
   (startline_parsing_spec.2.1 "nospace" (by decide)).1,
   (startline_parsing_spec.2.1 "nospace" (by decide)).2
     modelParseRequestURI modelReadTransfer (Except.ok []),
   startline_parsing_spec.2.2.1 "(" "/" "HTTP/1.1" (by decide) (by decide)
     (by decide) modelParseRequestURI modelReadTransfer (Except.ok []),
   (startline_parsing_spec.2.2.2 "GET" "/" "HTTP/1.1" (by decide) (by decide)
     (by decide) modelParseRequestURI modelReadTransfer
     (Except.error (RdErr.other "boom")) (ReqError.ioOther "boom") rfl).2⟩

end GoHttp

namespace GoHttp

/-- Setting a key leaves every other key's lookup unchanged. -/
theorem headerSet_lookup_ne (h : Header) (k k2 : String) (vs : List String)
    (hne : k2 ≠ k) : headerLookup (headerSet h k vs) k2 = headerLookup h k2 := by
  induction h with
  | nil =>
    simp only [headerSet, headerLookup]
    rw [if_neg (fun hh => hne hh.symm)]
  | cons e rest ih =>
    obtain ⟨ke, ve⟩ := e
    by_cases hk : ke = k
    · subst hk
      simp only [headerSet, if_pos rfl, headerLookup]
      rw [if_neg (fun hh => hne hh.symm), if_neg (fun hh => hne hh.symm)]
    · simp only [headerSet, if_neg hk, headerLookup]
      by_cases hk2 : ke = k2
      · rw [if_pos hk2, if_pos hk2]
      · rw [if_neg hk2, if_neg hk2, ih]

/-- Setting a key makes its lookup return exactly the new value list. -/
theorem headerSet_lookup_self (h : Header) (k : String) (vs : List String) :
    headerLookup (headerSet h k vs) k = some vs := by
  induction h with
  | nil => simp [headerSet, headerLookup]
  | cons e rest ih =>
    obtain ⟨ke, ve⟩ := e
    by_cases hk : ke = k
    · subst hk
      simp [headerSet, headerLookup]
    · simp only [headerSet, if_neg hk, headerLookup]
      exact ih

/-- The Pragma fix leaves the lookup of every key other than Cache-Control
unchanged. -/
theorem fixPragma_lookup_ne (h : Header) (k : String) (hk : k ≠ "Cache-Control") :
    headerLookup (fixPragmaCacheControl h) k = headerLookup h k := by
  unfold fixPragmaCacheControl
  cases headerLookup h "Pragma" with
  | none => rfl
  | some vs =>
    cases vs with
    | nil => rfl
    | cons v rest =>
      dsimp only
      by_cases hv : v = "no-cache"
      · rw [if_pos hv]
        by_cases hcc : headerHasKey h "Cache-Control" = true
        · rw [if_pos hcc]
        · rw [if_neg hcc]
          exact headerSet_lookup_ne h "Cache-Control" k ["no-cache"] hk
      · rw [if_neg hv]

/-- The Pragma fix preserves key presence for every key other than
Cache-Control. -/
theorem fixPragma_hasKey_ne (h : Header) (k : String) (hk : k ≠ "Cache-Control") :
    headerHasKey (fixPragmaCacheControl h) k = headerHasKey h k := by
  unfold headerHasKey
  rw [fixPragma_lookup_ne h k hk]

/-- A string without "/" anywhere does not start with "/". -/
theorem hasPrefixSlash_eq_false (t : String) (h : '/' ∉ t.data) :
    hasPrefixSlash t = false := by
  unfold hasPrefixSlash
  cases hd : t.data with
  | nil => rfl
  | cons c cs =>
    have : c ≠ '/' := fun hc => h (hd ▸ (hc ▸ List.mem_cons_self c cs))
    simp [decide_eq_false (fun hc => this hc)]

/-- A true slash prefix exposes the head of the character list. -/
theorem hasPrefixSlash_eq_true (t : String) (h : hasPrefixSlash t = true) :
    ∃ rest, t.data = '/' :: rest := by
  unfold hasPrefixSlash at h
  cases hd : t.data with
  | nil => rw [hd] at h; exact Bool.noConfusion h
  | cons c cs =>
    rw [hd] at h
    have : c = '/' := of_decide_eq_true h
    exact ⟨cs, by rw [this]⟩

/-- The URI model on an absolute http URL splits host and path at the first
slash of the remainder. -/
theorem modelParseURIData_http (rest : List Char) :
    modelParseURIData ('h' :: 't' :: 't' :: 'p' :: ':' :: '/' :: '/' :: rest)
      = Except.ok ⟨"http", String.mk (rest.takeWhile (fun c => c != '/')),
          String.mk (rest.dropWhile (fun c => c != '/'))⟩ := rfl

/-- The URI model keeps a rooted path whole. -/
theorem modelParseURIData_slash (rest : List Char) :
    modelParseURIData ('/' :: rest) = Except.ok ⟨"", "", String.mk ('/' :: rest)⟩ := rfl

end GoHttp

namespace GoHttp

/-- The modelled framing resolver succeeds with the no-body policy when the
message carries neither Transfer-Encoding nor Content-Length. -/
theorem modelReadTransfer_ok (req : Request)
    (hte : headerHasKey req.header "Transfer-Encoding" = false)
    (hcl : headerHasKey req.header "Content-Length" = false) :
    modelReadTransfer req =
      Except.ok { req with contentLength := 0, body := BodyVal.noBody } := by
  unfold modelReadTransfer
  rw [if_neg]
  intro hcontra
  rcases hcontra with hx | hx
  · rw [hte] at hx; exact Bool.noConfusion hx
  · rw [hcl] at hx; exact Bool.noConfusion hx

/-- A request whose method is not "PRI" is not the HTTP/2 preface. -/
theorem isH2UpgradeRequest_eq_false_of_method (req : Request)
    (hm : req.method ≠ "PRI") : isH2UpgradeRequest req = false := by
  unfold isH2UpgradeRequest
  rw [if_neg (fun hand => hm hand.1)]

/-- The preface adjustment is the identity off the preface shape. -/
theorem h2Adjust_of_not_h2 (req : Request)
    (h : isH2UpgradeRequest req = false) : h2Adjust req = req := by
  unfold h2Adjust
  rw [h]
  simp

end GoHttp

namespace GoHttp

/-- C4: a CONNECT whose target does not begin with "/" has the synthetic
"http://" scheme prefixed before URL parsing and stripped afterwards, so the
parsed request carries an authority-only target: URL.Host is the target,
URL.Scheme is empty (and the path is empty). A CONNECT whose target begins
with "/" parses as a path: the target sits in URL.Path with scheme absent and
host empty. Targets are authority- resp. path-shaped (no space, and none of
"/?#@%" beyond the leading slash), the fragment of the url grammar the
restricted parser model covers. -/
theorem readRequest_connect_target_forms :
    (∀ (t : String) (hdr : Header), ' ' ∉ t.data → '/' ∉ t.data →
      '?' ∉ t.data → '#' ∉ t.data → '@' ∉ t.data → '%' ∉ t.data →
      ((headerLookup hdr "Host").getD []).length ≤ 1 →
      headerHasKey hdr "Transfer-Encoding" = false →
      headerHasKey hdr "Content-Length" = false →
      ∃ req, readRequest modelParseRequestURI modelReadTransfer
          ⟨Except.ok ("CONNECT" ++ " " ++ t ++ " " ++ "HTTP/1.1"),
           Except.ok hdr⟩ = Except.ok req ∧
        req.url.host = t ∧ req.url.scheme = "" ∧ req.url.path = "") ∧
    (∀ (t : String) (hdr : Header), ' ' ∉ t.data → hasPrefixSlash t = true →
      '?' ∉ t.data → '#' ∉ t.data → '%' ∉ t.data →
      ((headerLookup hdr "Host").getD []).length ≤ 1 →
      headerHasKey hdr "Transfer-Encoding" = false →
      headerHasKey hdr "Content-Length" = false →
      ∃ req, readRequest modelParseRequestURI modelReadTransfer
          ⟨Except.ok ("CONNECT" ++ " " ++ t ++ " " ++ "HTTP/1.1"),
           Except.ok hdr⟩ = Except.ok req ∧
        req.url.path = t ∧ req.url.scheme = "" ∧ req.url.host = "") := by
  constructor
  · intro t hdr ht hslash _ _ _ _ hhost hte hcl
    have hps : hasPrefixSlash t = false := hasPrefixSlash_eq_false t hslash
    have hline := parseRequestLine_wellFormed "CONNECT" t "HTTP/1.1" (by decide) ht
    have heff : effectiveRawURL "CONNECT" t = "http://" ++ t := by
      unfold effectiveRawURL
      rw [if_pos ⟨rfl, hps⟩]
    have htake : t.data.takeWhile (fun c => c != '/') = t.data :=
      List.takeWhile_eq_self_iff.mpr (fun a ha => by
        simp only [bne_iff_ne, ne_eq, decide_eq_true_eq]
        exact fun hc => hslash (hc ▸ ha))
    have hdrop : t.data.dropWhile (fun c => c != '/') = [] :=
      List.dropWhile_eq_nil_iff.mpr (fun a ha => by
        simp only [bne_iff_ne, ne_eq, decide_eq_true_eq]
        exact fun hc => hslash (hc ▸ ha))
    have huri : modelParseRequestURI (effectiveRawURL "CONNECT" t)
        = Except.ok ⟨"http", t, ""⟩ := by
      rw [heff]
      unfold modelParseRequestURI
      rw [show ("http://" ++ t).data
          = 'h' :: 't' :: 't' :: 'p' :: ':' :: '/' :: '/' :: t.data from
          by simp [String.data_append]]
      rw [modelParseURIData_http, htake, hdrop]
    have hred : readRequest modelParseRequestURI modelReadTransfer
        ⟨Except.ok ("CONNECT" ++ " " ++ t ++ " " ++ "HTTP/1.1"), Except.ok hdr⟩
        = Except.mapError normEOF (readRequestAfterLine modelParseRequestURI
            modelReadTransfer ("CONNECT" ++ " " ++ t ++ " " ++ "HTTP/1.1")
            (Except.ok hdr)) := rfl
    rw [hred]
    unfold readRequestAfterLine
    rw [hline]
    dsimp only
    rw [if_neg (show ¬(isToken "CONNECT" = false) by decide)]
    rw [show parseHTTPVersion "HTTP/1.1" = some (1, 1) from rfl]
    dsimp only
    rw [huri]
    dsimp only
    rw [if_neg (Nat.not_lt.mpr hhost)]
    rw [if_pos ⟨rfl, hps⟩]
    rw [modelReadTransfer_ok]
    · dsimp only
      rw [h2Adjust_of_not_h2]
      · exact ⟨_, rfl, rfl, rfl, rfl⟩
      · exact isH2UpgradeRequest_eq_false_of_method _ (fun hx => by simp at hx)
    · rw [fixPragma_hasKey_ne hdr _ (by decide)]
      exact hte
    · rw [fixPragma_hasKey_ne hdr _ (by decide)]
      exact hcl
  · intro t hdr ht hps _ _ _ hhost hte hcl
    obtain ⟨rest, hdsl⟩ := hasPrefixSlash_eq_true t hps
    have hline := parseRequestLine_wellFormed "CONNECT" t "HTTP/1.1" (by decide) ht
    have heff : effectiveRawURL "CONNECT" t = t := by
      unfold effectiveRawURL
      rw [if_neg]
      intro hand
      rw [hps] at hand
      exact Bool.noConfusion hand.2
    have huri : modelParseRequestURI (effectiveRawURL "CONNECT" t)
        = Except.ok ⟨"", "", t⟩ := by
      rw [heff]
      unfold modelParseRequestURI
      rw [hdsl, modelParseURIData_slash, ← hdsl]
    have hred : readRequest modelParseRequestURI modelReadTransfer
        ⟨Except.ok ("CONNECT" ++ " " ++ t ++ " " ++ "HTTP/1.1"), Except.ok hdr⟩
        = Except.mapError normEOF (readRequestAfterLine modelParseRequestURI
            modelReadTransfer ("CONNECT" ++ " " ++ t ++ " " ++ "HTTP/1.1")
            (Except.ok hdr)) := rfl
    rw [hred]
    unfold readRequestAfterLine
    rw [hline]
    dsimp only
    rw [if_neg (show ¬(isToken "CONNECT" = false) by decide)]
    rw [show parseHTTPVersion "HTTP/1.1" = some (1, 1) from rfl]
    dsimp only
    have hja : ¬("CONNECT" = "CONNECT" ∧ hasPrefixSlash t = false) := by
      intro hand
      rw [hps] at hand
      exact Bool.noConfusion hand.2
    rw [huri]
    dsimp only
    rw [if_neg (Nat.not_lt.mpr hhost)]
    rw [if_neg hja]
    rw [modelReadTransfer_ok]
    · dsimp only
      rw [h2Adjust_of_not_h2]
      · exact ⟨_, rfl, rfl, rfl, rfl⟩
      · exact isH2UpgradeRequest_eq_false_of_method _ (fun hx => by simp at hx)
    · rw [fixPragma_hasKey_ne hdr _ (by decide)]
      exact hte
    · rw [fixPragma_hasKey_ne hdr _ (by decide)]
      exact hcl

end GoHttp

namespace GoHttp

/-- C4 (witness): the theorem applied to the spec's concrete examples
"CONNECT example.com:443 HTTP/1.1" and "CONNECT /rpc/path HTTP/1.1". -/
theorem readRequest_connect_target_forms_witness :
    (∃ req, readRequest modelParseRequestURI modelReadTransfer
        ⟨Except.ok ("CONNECT" ++ " " ++ "example.com:443" ++ " " ++ "HTTP/1.1"),
         Except.ok []⟩ = Except.ok req ∧
      req.url.host = "example.com:443" ∧ req.url.scheme = "" ∧
      req.url.path = "") ∧
    (∃ req, readRequest modelParseRequestURI modelReadTransfer
        ⟨Except.ok ("CONNECT" ++ " " ++ "/rpc/path" ++ " " ++ "HTTP/1.1"),
         Except.ok []⟩ = Except.ok req ∧
      req.url.path = "/rpc/path" ∧ req.url.scheme = "" ∧ req.url.host = "") :=
  ⟨readRequest_connect_target_forms.1 "example.com:443" [] (by decide)
     (by decide) (by decide) (by decide) (by decide) (by decide) (by decide)
     (by decide) (by decide),
   readRequest_connect_target_forms.2 "/rpc/path" [] (by decide) (by decide)
     (by decide) (by decide) (by decide) (by decide) (by decide) (by decide)⟩

end GoHttp

namespace GoHttp

/-- The preface adjustment leaves the four shape fields untouched. -/
theorem isH2_h2Adjust (r : Request) :
    isH2UpgradeRequest (h2Adjust r) = isH2UpgradeRequest r := by
  unfold h2Adjust
  split
  · simp [isH2UpgradeRequest]
  · rfl

/-- On the preface shape the adjustment forces length -1 and close. -/
theorem h2Adjust_of_h2 (r : Request) (h : isH2UpgradeRequest r = true) :
    h2Adjust r = { r with contentLength := -1, close := true } := by
  unfold h2Adjust
  rw [h]
  simp

/-- The EOF normalization never returns the plain end-of-stream error. -/
theorem normEOF_ne_eof (e : ReqError) : normEOF e ≠ ReqError.eof := by
  cases e <;> simp [normEOF]

/-- Every request readRequest returns has passed the preface adjustment. -/
theorem readRequest_ok_inv (pURI : String → Except String URLRec)
    (tf : Request → Except RdErr Request) (inp : RawRequest) (req : Request)
    (h : readRequest pURI tf inp = Except.ok req) : ∃ r, req = h2Adjust r := by
  rcases inp with ⟨sl, mh⟩
  unfold readRequest at h
  dsimp only at h
  cases sl with
  | error e => cases e <;> exact Except.noConfusion h
  | ok s =>
    dsimp only at h
    cases hres : readRequestAfterLine pURI tf s mh with
    | error e =>
      rw [hres] at h
      exact Except.noConfusion h
    | ok r =>
      rw [hres] at h
      simp only [Except.mapError] at h
      injection h with h2
      subst h2
      unfold readRequestAfterLine at hres
      repeat' split at hres
      all_goals try dsimp only at hres
      repeat' split at hres
      all_goals try exact Except.noConfusion hres
      all_goals injection hres with h3
      all_goals exact ⟨_, h3.symm⟩

/-- C5: `isH2UpgradeRequest` holds exactly of the preface shape (method "PRI",
zero header fields, URL path "*", protocol string "HTTP/2.0"); every request
readRequest returns that matches the shape has ContentLength forced to -1 and
Close forced to true; off the shape the preface rule changes nothing; and the
concrete preface line "PRI * HTTP/2.0" with zero headers produces a request
with ContentLength = -1 and Close = true even absent explicit headers. -/
theorem h2_preface_detection :
    (∀ req : Request, isH2UpgradeRequest req = true ↔
      (req.method = "PRI" ∧ req.header = ([] : Header) ∧ req.url.path = "*" ∧
       req.proto = "HTTP/2.0")) ∧
    (∀ pURI tf inp req, readRequest pURI tf inp = Except.ok req →
      isH2UpgradeRequest req = true →
      req.contentLength = -1 ∧ req.close = true) ∧
    (∀ req : Request, isH2UpgradeRequest req = false → h2Adjust req = req) ∧
    (∃ req, readRequest modelParseRequestURI modelReadTransfer
        ⟨Except.ok ("PRI" ++ " " ++ "*" ++ " " ++ "HTTP/2.0"), Except.ok []⟩ =
      Except.ok req ∧ isH2UpgradeRequest req = true ∧
      req.contentLength = -1 ∧ req.close = true) := by
  refine ⟨?_, ?_, h2Adjust_of_not_h2, ?_⟩
  · intro req
    unfold isH2UpgradeRequest
    split
    · next h => simp [h]
    · next h => simp [h]
  · intro pURI tf inp req hok hh2
    obtain ⟨r, hr⟩ := readRequest_ok_inv pURI tf inp req hok
    subst hr
    rw [isH2_h2Adjust] at hh2
    rw [h2Adjust_of_h2 r hh2]
    exact ⟨rfl, rfl⟩
  · exact ⟨_, rfl, rfl, rfl, rfl⟩

/-- The parsed HTTP/2 cleartext preface request, as readRequest produces it. -/
def prefaceReq : Request :=
  { method := "PRI", requestURI := "*", proto := "HTTP/2.0", protoMajor := 2,
    protoMinor := 0, url := ⟨"", "", "*"⟩, header := [], host := "",
    close := true, contentLength := -1, body := BodyVal.noBody,
    getBody := false }

/-- C5 (witness): the theorem applied at the concrete preface request and at a
plain GET request off the shape. -/
theorem h2_preface_detection_witness :
    (isH2UpgradeRequest prefaceReq = true) ∧
    (prefaceReq.contentLength = -1 ∧ prefaceReq.close = true) ∧
    (h2Adjust getNoBodyReq = getNoBodyReq) :=
  ⟨(h2_preface_detection.1 prefaceReq).mpr ⟨rfl, rfl, rfl, rfl⟩,
   h2_preface_detection.2.1 modelParseRequestURI modelReadTransfer
     ⟨Except.ok ("PRI" ++ " " ++ "*" ++ " " ++ "HTTP/2.0"), Except.ok []⟩
     prefaceReq rfl (by decide),
   h2_preface_detection.2.2.1 getNoBodyReq (by decide)⟩

end GoHttp

namespace GoHttp

/-- C7 (counterexample): end-of-stream reported by the reader while reading the
start line is returned by readRequest as the plain end-of-stream error, not as
the unexpected-end-of-stream error the claim requires: the deferred conversion
is installed only after the first ReadLine has succeeded. -/
theorem startline_eof_not_normalized :
    readRequest modelParseRequestURI modelReadTransfer
      ⟨Except.error RdErr.eof, Except.ok []⟩ = Except.error ReqError.eof ∧
    ReqError.eof ≠ ReqError.unexpectedEOF :=
  ⟨rfl, by decide⟩

/-- C7 (amended): readRequest returns the plain end-of-stream error exactly
when the initial start-line read reports EOF — the clean connection-close
signal; an EOF reported after the start line was read, for example while
reading the header block, is normalized to the unexpected-end-of-stream
error. -/
theorem readRequest_eof_normalization :
    (∀ pURI tf inp, readRequest pURI tf inp = Except.error ReqError.eof ↔
      inp.startLine = Except.error RdErr.eof) ∧
    (∀ pURI tf (m t p : String) (vv : Nat × Nat) (u : URLRec),
      ' ' ∉ m.data → ' ' ∉ t.data → isToken m = true →
      parseHTTPVersion p = some vv → pURI (effectiveRawURL m t) = Except.ok u →
      readRequest pURI tf
        ⟨Except.ok (m ++ " " ++ t ++ " " ++ p), Except.error RdErr.eof⟩ =
        Except.error ReqError.unexpectedEOF) := by
  constructor
  · intro pURI tf inp
    rcases inp with ⟨sl, mh⟩
    constructor
    · intro h
      cases sl with
      | error e =>
        cases e with
        | eof => rfl
        | other msg =>
          unfold readRequest at h
          dsimp only at h
          injection h with h2
          exact ReqError.noConfusion h2
      | ok s =>
        exfalso
        unfold readRequest at h
        dsimp only at h
        cases hres : readRequestAfterLine pURI tf s mh with
        | error e =>
          rw [hres] at h
          simp only [Except.mapError] at h
          injection h with h2
          exact normEOF_ne_eof e h2
        | ok r =>
          rw [hres] at h
          exact Except.noConfusion h
    · intro h
      rw [show sl = Except.error RdErr.eof from h]
      rfl
  · intro pURI tf m t p vv u hm ht htok hv hu
    obtain ⟨ma, mi⟩ := vv
    have hline := parseRequestLine_wellFormed m t p hm ht
    have hred : readRequest pURI tf
        ⟨Except.ok (m ++ " " ++ t ++ " " ++ p), Except.error RdErr.eof⟩
        = Except.mapError normEOF (readRequestAfterLine pURI tf
            (m ++ " " ++ t ++ " " ++ p) (Except.error RdErr.eof)) := rfl
    rw [hred]
    unfold readRequestAfterLine
    rw [hline]
    dsimp only
    rw [if_neg (by simp [htok])]
    rw [hv]
    dsimp only
    rw [hu]
    rfl

/-- C7 (witness): the amended theorem applied at concrete inputs — a clean
close before any bytes yields the plain end-of-stream error, and an EOF in the
header block of "GET / HTTP/1.1" yields the unexpected-end-of-stream error. -/
theorem readRequest_eof_normalization_witness :
    readRequest modelParseRequestURI modelReadTransfer
      ⟨Except.error RdErr.eof, Except.ok [("Host", ["h"])]⟩ =
        Except.error ReqError.eof ∧
    readRequest modelParseRequestURI modelReadTransfer
      ⟨Except.ok ("GET" ++ " " ++ "/" ++ " " ++ "HTTP/1.1"),
       Except.error RdErr.eof⟩ = Except.error ReqError.unexpectedEOF :=
  ⟨(readRequest_eof_normalization.1 modelParseRequestURI modelReadTransfer
      ⟨Except.error RdErr.eof, Except.ok [("Host", ["h"])]⟩).mpr rfl,
   readRequest_eof_normalization.2 modelParseRequestURI modelReadTransfer
     "GET" "/" "HTTP/1.1" (1, 1) ⟨"", "", "/"⟩ (by decide) (by decide)
     (by decide) (by decide) rfl⟩

end GoHttp

namespace GoHttp

/-- Embeds the Protocols bitset (http.go lines 25–33): a set of HTTP protocols
stored in a uint8; the API uses only the three low bits. -/
structure Protocols where
  bits : Nat
deriving DecidableEq, Repr

/-- Bit mask of HTTP1 (http.go line 30). -/
def protoHTTP1 : Nat := 1

/-- Bit mask of HTTP2 (http.go line 31). -/
def protoHTTP2 : Nat := 2

/-- Bit mask of UnencryptedHTTP2 (http.go line 32). -/
def protoUnencryptedHTTP2 : Nat := 4

/-- Embeds Protocols.setBit (http.go lines 53–59); the clear branch is the Go
`&^` on the uint8 field. -/
def Protocols.setBit (p : Protocols) (bit : Nat) (ok : Bool) : Protocols :=
  if ok then ⟨p.bits ||| bit⟩ else ⟨p.bits &&& (255 ^^^ bit)⟩

/-- Embeds Protocols.HTTP1 (http.go line 36). -/
def Protocols.HTTP1 (p : Protocols) : Bool := p.bits &&& protoHTTP1 != 0

/-- Embeds Protocols.SetHTTP1 (http.go line 39). -/
def Protocols.SetHTTP1 (p : Protocols) (ok : Bool) : Protocols :=
  p.setBit protoHTTP1 ok

/-- Embeds Protocols.HTTP2 (http.go line 42). -/
def Protocols.HTTP2 (p : Protocols) : Bool := p.bits &&& protoHTTP2 != 0

/-- Embeds Protocols.SetHTTP2 (http.go line 45). -/
def Protocols.SetHTTP2 (p : Protocols) (ok : Bool) : Protocols :=
  p.setBit protoHTTP2 ok

/-- Embeds Protocols.UnencryptedHTTP2 (http.go line 48). -/
def Protocols.UnencryptedHTTP2 (p : Protocols) : Bool :=
  p.bits &&& protoUnencryptedHTTP2 != 0

/-- Embeds Protocols.SetUnencryptedHTTP2 (http.go line 51). -/
def Protocols.SetUnencryptedHTTP2 (p : Protocols) (ok : Bool) : Protocols :=
  p.setBit protoUnencryptedHTTP2 ok

/-- The member names the Go String method appends, in its fixed order
(http.go lines 62–71). -/
def Protocols.members (p : Protocols) : List String :=
  (if p.HTTP1 then ["HTTP1"] else []) ++
  (if p.HTTP2 then ["HTTP2"] else []) ++
  (if p.UnencryptedHTTP2 then ["UnencryptedHTTP2"] else [])

/-- Embeds Protocols.String (http.go lines 61–73): the enabled members joined
with commas between braces. -/
def Protocols.render (p : Protocols) : String :=
  "\x7b" ++ String.intercalate "," p.members ++ "\x7d"

/-- Re-enabling exactly the listed members starting from the zero value, via
the Set operations. -/
def setFromList (l : List String) : Protocols :=
  l.foldl (fun q name =>
    if name = "HTTP1" then q.SetHTTP1 true
    else if name = "HTTP2" then q.SetHTTP2 true
    else if name = "UnencryptedHTTP2" then q.SetUnencryptedHTTP2 true
    else q) ⟨0⟩

/-- Embeds requestRequiresHTTP1 (request reading, lines 236–239): the
Connection header carries an "upgrade" token and the Upgrade header equals
"websocket" up to ASCII case. -/
def requestRequiresHTTP1 (req : Request) : Bool :=
  hasToken (headerGet req.header "Connection") "upgrade" &&
  asciiEqualFold (headerGet req.header "Upgrade") "websocket"

/-- A request announcing an HTTP/2 cleartext upgrade via the Upgrade header. -/
def h2cUpgradeReq : Request :=
  { getNoBodyReq with
    header := [("Connection", ["upgrade"]), ("Upgrade", ["h2c"])] }

/-- A WebSocket upgrade request with folded case and a token-list Connection. -/
def websocketUpgradeReq : Request :=
  { getNoBodyReq with
    header := [("Connection", ["keep-alive, Upgrade"]), ("Upgrade", ["WebSocket"])] }

end GoHttp

namespace GoHttp

/-- C6: Protocols.render produces "{", then exactly the enabled members in the
fixed order HTTP1, HTTP2, UnencryptedHTTP2 joined by commas, then "}"; and
starting from the zero value, enabling exactly the listed members reproduces
the original value (round-trip), for every value in the three-bit API range. -/
theorem protocols_render_roundtrip (p : Protocols) (hp : p.bits < 8) :
    Protocols.render p =
      "\x7b" ++ String.intercalate "," (Protocols.members p) ++ "\x7d" ∧
    ("HTTP1" ∈ Protocols.members p ↔ p.HTTP1 = true) ∧
    ("HTTP2" ∈ Protocols.members p ↔ p.HTTP2 = true) ∧
    ("UnencryptedHTTP2" ∈ Protocols.members p ↔ p.UnencryptedHTTP2 = true) ∧
    (∀ s ∈ Protocols.members p,
      s = "HTTP1" ∨ s = "HTTP2" ∨ s = "UnencryptedHTTP2") ∧
    setFromList (Protocols.members p) = p := by
  obtain ⟨b⟩ := p
  simp only [Protocols.mk.injEq] at hp ⊢
  interval_cases b <;> exact ⟨rfl, by decide, by decide, by decide, by decide,
    by decide⟩

/-- C6 (witness): the theorem applied at the value enabling HTTP1 and
UnencryptedHTTP2, whose rendering is "{HTTP1,UnencryptedHTTP2}". -/
theorem protocols_render_roundtrip_witness :
    Protocols.render ⟨5⟩ = "\x7bHTTP1,UnencryptedHTTP2\x7d" ∧
    setFromList (Protocols.members ⟨5⟩) = ⟨5⟩ :=
  ⟨by decide, (protocols_render_roundtrip ⟨5⟩ (by decide)).2.2.2.2.2⟩

/-- C8 (counterexample): a request whose Connection header contains the
upgrade token and whose Upgrade header carries the upgrade token "h2c" is NOT
flagged by requestRequiresHTTP1 — the code accepts only "websocket" (ASCII
case-insensitively), so an arbitrary upgrade token does not suffice. -/
theorem requiresHTTP1_h2c_refutes_claim :
    hasToken (headerGet h2cUpgradeReq.header "Connection") "upgrade" = true ∧
    headerGet h2cUpgradeReq.header "Upgrade" = "h2c" ∧
    requestRequiresHTTP1 h2cUpgradeReq = false := by
  decide

/-- C8 (amended): requestRequiresHTTP1 returns true exactly when the
Connection header contains the token "upgrade" and the Upgrade header equals
"websocket" ASCII case-insensitively; an empty Upgrade value or a Connection
header without the upgrade token always yields false. -/
theorem requiresHTTP1_websocket_only (req : Request) :
    (requestRequiresHTTP1 req = true ↔
      (hasToken (headerGet req.header "Connection") "upgrade" = true ∧
       asciiEqualFold (headerGet req.header "Upgrade") "websocket" = true)) ∧
    (headerGet req.header "Upgrade" = "" → requestRequiresHTTP1 req = false) ∧
    (hasToken (headerGet req.header "Connection") "upgrade" = false →
      requestRequiresHTTP1 req = false) := by
  refine ⟨by unfold requestRequiresHTTP1; exact iff_of_eq (Bool.and_eq_true _ _),
    ?_, ?_⟩
  · intro hup
    unfold requestRequiresHTTP1
    rw [hup]
    rw [show asciiEqualFold "" "websocket" = false from by decide]
    exact Bool.and_false _
  · intro hconn
    unfold requestRequiresHTTP1
    rw [hconn]
    exact Bool.false_and _

/-- C8 (witness): the amended theorem applied to a concrete WebSocket upgrade
(mixed case, Connection token list) and to a request with no Upgrade header. -/
theorem requiresHTTP1_websocket_only_witness :
    requestRequiresHTTP1 websocketUpgradeReq = true ∧
    requestRequiresHTTP1 getNoBodyReq = false :=
  ⟨(requiresHTTP1_websocket_only websocketUpgradeReq).1.mpr
     ⟨by decide, by decide⟩,
   (requiresHTTP1_websocket_only getNoBodyReq).2.1 (by decide)⟩

end GoHttp

namespace GoHttp

/-- When a Cache-Control entry already exists, the Pragma fix is the identity. -/
theorem fixPragma_id_of_cc_present (h : Header) (vs : List String)
    (hcc : headerLookup h "Cache-Control" = some vs) :
    fixPragmaCacheControl h = h := by
  unfold fixPragmaCacheControl
  cases hlk : headerLookup h "Pragma" with
  | none => rfl
  | some ws =>
    cases ws with
    | nil => rfl
    | cons v rest =>
      dsimp only
      by_cases hv : v = "no-cache"
      · rw [if_pos hv, if_pos (by simp [headerHasKey, hcc])]
      · rw [if_neg hv]

/-- C9: fixPragmaCacheControl synthesizes Cache-Control with the single value
"no-cache" exactly when the Pragma field's value is "no-cache" (its first
value, the field's value in the sense of Header.Get) and no Cache-Control
entry exists; in every other case the map is returned unchanged; an existing
Cache-Control entry is never overwritten; and the lookup of every field other
than Cache-Control is never modified. -/
theorem fixPragmaCacheControl_spec (h : Header) :
    ((∃ rest, headerLookup h "Pragma" = some ("no-cache" :: rest)) →
      headerLookup h "Cache-Control" = none →
      fixPragmaCacheControl h = headerSet h "Cache-Control" ["no-cache"] ∧
      headerLookup (fixPragmaCacheControl h) "Cache-Control" =
        some ["no-cache"]) ∧
    ((¬ ∃ rest, headerLookup h "Pragma" = some ("no-cache" :: rest)) →
      fixPragmaCacheControl h = h) ∧
    (∀ vs, headerLookup h "Cache-Control" = some vs →
      fixPragmaCacheControl h = h ∧
      headerLookup (fixPragmaCacheControl h) "Cache-Control" = some vs) ∧
    (∀ k, k ≠ "Cache-Control" →
      headerLookup (fixPragmaCacheControl h) k = headerLookup h k) := by
  refine ⟨?_, ?_, ?_, fun k hk => fixPragma_lookup_ne h k hk⟩
  · rintro ⟨rest, hp⟩ hcc
    have hfix : fixPragmaCacheControl h =
        headerSet h "Cache-Control" ["no-cache"] := by
      unfold fixPragmaCacheControl
      rw [hp]
      dsimp only
      rw [if_pos rfl, if_neg (by simp [headerHasKey, hcc])]
    refine ⟨hfix, ?_⟩
    rw [hfix]
    exact headerSet_lookup_self h "Cache-Control" ["no-cache"]
  · intro hne
    unfold fixPragmaCacheControl
    cases hlk : headerLookup h "Pragma" with
    | none => rfl
    | some ws =>
      cases ws with
      | nil => rfl
      | cons v rest =>
        dsimp only
        rw [if_neg (fun hveq => hne ⟨rest, by rw [hlk, hveq]⟩)]
  · intro vs hcc
    have hfix := fixPragma_id_of_cc_present h vs hcc
    exact ⟨hfix, by rw [hfix]; exact hcc⟩

/-- C9 (witness): the theorem applied at concrete header maps — a lone Pragma
no-cache gains the synthesized entry; an existing Cache-Control survives; a
Host field is untouched. -/
theorem fixPragmaCacheControl_spec_witness :
    fixPragmaCacheControl [("Pragma", ["no-cache"])] =
      [("Pragma", ["no-cache"]), ("Cache-Control", ["no-cache"])] ∧
    fixPragmaCacheControl
        [("Pragma", ["no-cache"]), ("Cache-Control", ["max-age=0"])] =
      [("Pragma", ["no-cache"]), ("Cache-Control", ["max-age=0"])] ∧
    headerLookup (fixPragmaCacheControl [("Pragma", ["no-cache"]),
        ("Host", ["example.com"])]) "Host" =
      headerLookup [("Pragma", ["no-cache"]), ("Host", ["example.com"])]
        "Host" :=
  ⟨((fixPragmaCacheControl_spec [("Pragma", ["no-cache"])]).1
      ⟨[], rfl⟩ rfl).1.trans (by decide),
   ((fixPragmaCacheControl_spec
      [("Pragma", ["no-cache"]), ("Cache-Control", ["max-age=0"])]).2.2.1
      ["max-age=0"] rfl).1,
   (fixPragmaCacheControl_spec [("Pragma", ["no-cache"]),
      ("Host", ["example.com"])]).2.2.2 "Host" (by decide)⟩

end GoHttp
